import Mathlib

/-!
# Verification of the `bevy-snapolation` snapshot-interpolation core

A shallow embedding of `src/vault.rs` and `src/snapshot_interpolation.rs`.

Modelling conventions, used uniformly below:

* `Duration` values are modelled as natural numbers of milliseconds (`Nat`).
  All times appearing in the verified claims are whole milliseconds, and
  `Duration`'s ordering agrees with the ordering of the millisecond counts.
* Machine integers are modelled as `Nat`/`Int` with wrap-around taken
  explicitly modulo `2 ^ w` where the source can overflow.  Unsigned
  subtraction is modelled with the release-profile two's-complement
  wrap-around semantics of Rust (`usizeSub`, `u128Sub` below).
* `f32` values are modelled by the type `F`: a finite value is an exact
  rational (`F.fin q`; rounding and overflow of finite arithmetic are not
  modelled), and the non-finite values `NaN`, `+∞`, `-∞` are explicit
  constructors with the IEEE-754 propagation rules for the operations the
  source uses.
* Rust functions that can `panic!` (abort the process) return a
  `RunResult`; `RunResult.panicked msg` models process abortion, from which
  the caller cannot recover.
* `bevy::utils::HashMap` is only ever read through `get` in this code, so a
  map is modelled as an association list read through first-match lookup
  (a `HashMap` holds at most one binding per key).
* `SystemTime::now()` is an external input in the spec's words; it is passed
  to the engine operations as an explicit `now` argument (in milliseconds
  since `UNIX_EPOCH`).
-/

namespace Snapolation

/-- The number of values of `usize` (64-bit target). -/
def USIZE : Nat := 2 ^ 64

/-- The number of values of `u128`. -/
def U128 : Nat := 2 ^ 128

/-- The number of values of `u64`. -/
def U64 : Nat := 2 ^ 64

/-- `a - b` on `usize`, with Rust's release-profile two's-complement
wrap-around on underflow. -/
def usizeSub (a b : Nat) : Nat := (a % USIZE + (USIZE - b % USIZE)) % USIZE

/-- `a - b` on `u128`, with Rust's release-profile two's-complement
wrap-around on underflow. -/
def u128Sub (a b : Nat) : Nat := (a % U128 + (U128 - b % U128)) % U128

/-- Reinterpret a `u128` bit pattern as an `i128` (Rust's `as i128`). -/
def u128AsI128 (x : Nat) : Int :=
  if x % U128 < 2 ^ 127 then ((x % U128 : Nat) : Int)
  else ((x % U128 : Nat) : Int) - (U128 : Int)

/-- An `f32` value.  `fin q` is a finite value, modelled as an exact
rational (rounding of finite arithmetic is not modelled, and finite
arithmetic never overflows in the model); `nan`, `pinf` and `ninf` are the
IEEE-754 non-finite values, which the source can produce by dividing by a
zero-length time interval. -/
inductive F where
  | fin (q : ℚ)
  | nan
  | pinf
  | ninf
deriving DecidableEq

/-- `f32` addition (IEEE-754 rules on non-finite operands). -/
def F.add : F → F → F
  | .fin a, .fin b => .fin (a + b)
  | .nan, _ => .nan
  | _, .nan => .nan
  | .pinf, .ninf => .nan
  | .ninf, .pinf => .nan
  | .pinf, _ => .pinf
  | _, .pinf => .pinf
  | .ninf, _ => .ninf
  | _, .ninf => .ninf

/-- `f32` subtraction (IEEE-754 rules on non-finite operands). -/
def F.sub : F → F → F
  | .fin a, .fin b => .fin (a - b)
  | .nan, _ => .nan
  | _, .nan => .nan
  | .pinf, .pinf => .nan
  | .ninf, .ninf => .nan
  | .pinf, _ => .pinf
  | _, .pinf => .ninf
  | .ninf, _ => .ninf
  | _, .ninf => .pinf

/-- `f32` multiplication (IEEE-754 rules on non-finite operands;
`±∞ * 0 = NaN`). -/
def F.mul : F → F → F
  | .fin a, .fin b => .fin (a * b)
  | .nan, _ => .nan
  | _, .nan => .nan
  | .pinf, .pinf => .pinf
  | .pinf, .ninf => .ninf
  | .ninf, .pinf => .ninf
  | .ninf, .ninf => .pinf
  | .pinf, .fin b => if 0 < b then .pinf else if b < 0 then .ninf else .nan
  | .fin a, .pinf => if 0 < a then .pinf else if a < 0 then .ninf else .nan
  | .ninf, .fin b => if 0 < b then .ninf else if b < 0 then .pinf else .nan
  | .fin a, .ninf => if 0 < a then .ninf else if a < 0 then .pinf else .nan

/-- `f32` strict comparison `<` (false whenever an operand is NaN). -/
def F.lt : F → F → Bool
  | .fin a, .fin b => decide (a < b)
  | .nan, _ => false
  | _, .nan => false
  | .pinf, _ => false
  | _, .pinf => true
  | .ninf, .ninf => false
  | .ninf, _ => true
  | .fin _, .ninf => false

/-- `f32` comparison `<=` (false whenever an operand is NaN). -/
def F.le : F → F → Bool
  | .fin a, .fin b => decide (a ≤ b)
  | .nan, _ => false
  | _, .nan => false
  | _, .pinf => true
  | .pinf, _ => false
  | .ninf, _ => true
  | .fin _, .ninf => false

/-- The exact rational value of the `f32` constant `std::f32::consts::PI`
(bit pattern `0x40490FDB`). -/
def pi32 : ℚ := 13176795 / 4194304

/-- `fn lerp(start: f32, end: f32, t: f32) -> f32 { (end - start) * t + start }`
(`src/snapshot_interpolation.rs:190`). -/
def lerp (start stop t : F) : F := ((stop.sub start).mul t).add start

/-- `fn degree_lerp(start: f32, mut end: f32, t: f32) -> f32`
(`src/snapshot_interpolation.rs:195`): wrapping-angle interpolation with a
full turn of 360 degrees. -/
def degree_lerp (start stop t : F) : F :=
  let diff := stop.sub start
  if diff.lt (.fin (-180)) then
    let result := lerp start (stop.add (.fin 360)) t
    if (F.fin 360).le result then result.sub (.fin 360) else result
  else if (F.fin 180).lt diff then
    let result := lerp start (stop.sub (.fin 360)) t
    if result.lt (.fin 0) then result.add (.fin 360) else result
  else
    lerp start stop t

/-- `fn radian_lerp(start: f32, mut end: f32, t: f32) -> f32`
(`src/snapshot_interpolation.rs:219`): wrapping-angle interpolation with a
full turn of `PI * 2.` radians.  `pi32` is the exact value of the `f32`
constant `PI`; its negation and its product with `2.` are exact in `f32`.
The early `return result;` statements in the source all return the same
`result` the fall-through returns, so the control flow collapses to the
same three-branch shape as `degree_lerp`. -/
def radian_lerp (start stop t : F) : F :=
  let diff := stop.sub start
  if diff.lt (.fin (-pi32)) then
    let result := lerp start (stop.add (.fin (pi32 * 2))) t
    if (F.fin (pi32 * 2)).le result then result.sub (.fin (pi32 * 2)) else result
  else if (F.fin pi32).lt diff then
    let result := lerp start (stop.sub (.fin (pi32 * 2))) t
    if result.lt (.fin 0) then result.add (.fin (pi32 * 2)) else result
  else
    lerp start stop t

/-- `bevy::prelude::Vec4`: four `f32` components. -/
structure Vec4 where
  x : F
  y : F
  z : F
  w : F
deriving DecidableEq

/-- `glam`'s `Vec4::lerp(self, rhs, s) = self + ((rhs - self) * s)`,
componentwise.  This is the routine the source applies to `Quat`-tagged
state values (`src/snapshot_interpolation.rs:147`). -/
def Vec4.lerp (self rhs : Vec4) (s : F) : Vec4 :=
  { x := self.x.add ((rhs.x.sub self.x).mul s)
    y := self.y.add ((rhs.y.sub self.y).mul s)
    z := self.z.add ((rhs.z.sub self.z).mul s)
    w := self.w.add ((rhs.w.sub self.w).mul s) }

/-- The squared Euclidean norm of a `Vec4`, in `f32` arithmetic.  A unit
quaternion has squared norm `1`. -/
def Vec4.normSq (v : Vec4) : F :=
  (((v.x.mul v.x).add (v.y.mul v.y)).add (v.z.mul v.z)).add (v.w.mul v.w)

/-- `enum StateValue` (`src/vault.rs:22`). -/
inductive StateValue where
  | Number (v : F)
  | Degree (v : F)
  | Radian (v : F)
  | Quat (v : Vec4)
deriving DecidableEq

/-- `struct SnapolationEntity` (`src/vault.rs:30`).  The `state` HashMap is
modelled as an association list read through first-match lookup. -/
structure SnapolationEntity where
  id : Nat
  state : List (String × StateValue)
deriving DecidableEq

/-- `type SnapolationEntities = HashMap<String, Vec<SnapolationEntity>>`
(`src/vault.rs:19`; `snapshot_interpolation.rs` imports it as `Entities`). -/
abbrev Entities := List (String × List SnapolationEntity)

/-- `struct Snapshot` (`src/vault.rs:13`): `id : u64`, `time : Duration`
(milliseconds). -/
structure Snapshot where
  id : Nat
  time : Nat
  entities : Entities
deriving DecidableEq

/-- `struct Vault` (`src/vault.rs:7`). -/
structure Vault where
  vault_size : Nat
  vault : List Snapshot
deriving DecidableEq

/-- The descending-by-`time` ordering used by every
`sort_unstable_by(|a, b| b.time.cmp(&a.time))` call in `src/vault.rs`. -/
def timeDesc (a b : Snapshot) : Prop := b.time ≤ a.time

instance : DecidableRel timeDesc := fun a b => Nat.decLe b.time a.time

instance : IsTotal Snapshot timeDesc :=
  ⟨fun a b => Or.symm (Nat.le_total a.time b.time)⟩

instance : IsTrans Snapshot timeDesc :=
  ⟨fun _ _ _ hab hbc => le_trans hbc hab⟩

/-- `self.vault.sort_unstable_by(|a, b| b.time.cmp(&a.time))`: sort
newest-first.  `sort_unstable_by` is some correct sort with unspecified
order on ties; insertion sort is one such sort, and every verified claim is
insensitive to the order of equal-`time` snapshots. -/
def sortDesc (l : List Snapshot) : List Snapshot := List.insertionSort timeDesc l

/-- The scan loop of `Vault::get_two_closest` (`src/vault.rs:53`): walk the
descending-sorted list with its enumeration index; at the first snapshot
at-or-before `time`, pair it with `sorted.get(index - 1)` (whose `usize`
index wraps around at `index == 0`, making the lookup return `None`). -/
def getTwoClosestGo (sorted : List Snapshot) (time : Nat) :
    List Snapshot → Nat → Option (Option Snapshot × Option Snapshot)
  | [], _ => none
  | snapshot :: rest, index =>
    if snapshot.time ≤ time then
      some (sorted[usizeSub index 1]?, some snapshot)
    else
      getTwoClosestGo sorted time rest (index + 1)

/-- `Vault::get_two_closest` (`src/vault.rs:49`).  The source returns
`Option<Vec<Option<Snapshot>>>` whose vector always has exactly the two
elements `[newer, Some(older)]`; the vector is modelled as a pair. -/
def Vault.get_two_closest (self : Vault) (time : Nat) :
    Option (Option Snapshot × Option Snapshot) :=
  let sorted := sortDesc self.vault
  getTwoClosestGo sorted time sorted 0

/-- `Vault::add` (`src/vault.rs:89`): sort newest-first, `pop` the last
(oldest) element when the store is at or above capacity, then insert the
new snapshot at the front. -/
def Vault.add (self : Vault) (snapshot : Snapshot) : Vault :=
  let sorted := sortDesc self.vault
  let popped := if self.vault_size ≤ sorted.length then sorted.dropLast else sorted
  { self with vault := snapshot :: popped }

/-- `Vault::get_by_id` (`src/vault.rs:36`): first-match scan. -/
def Vault.get_by_id (self : Vault) (id : Nat) : Option Snapshot :=
  self.vault.find? (fun snapshot => snapshot.id == id)

/-- `Vault::clear` (`src/vault.rs:40`). -/
def Vault.clear (self : Vault) : Vault := { self with vault := [] }

/-- `struct SnapshotInterpolation` (`src/snapshot_interpolation.rs:10`).
`time_offset` is an `i128`, modelled as an exact `Int`: every reachable
offset is a difference of millisecond counts of `Duration`s (magnitude
below `2 ^ 75`), far from the `i128` overflow boundary, so `i128`
arithmetic on reachable values never wraps.  `interpolation_buffer` and
`server_time` are `Duration`s in milliseconds. -/
structure SnapshotInterpolation where
  vault : Vault
  interpolation_buffer : Nat
  time_offset : Int
  server_time : Nat
  autocorrect_time_offset : Bool
deriving DecidableEq

/-- `struct InterpolatedSnapshot` (`src/snapshot_interpolation.rs:19`). -/
structure InterpolatedSnapshot where
  entities : List SnapolationEntity
  percentage : F
  newer_id : Nat
  older_id : Nat
deriving DecidableEq

/-- The outcome of running a Rust function that may `panic!`.
`panicked msg` models process abortion with the given panic message; the
source offers the caller no way to recover from it, and no value is
produced. -/
inductive RunResult (α : Type) where
  | ok (val : α)
  | panicked (msg : String)
deriving DecidableEq

/-- `SnapshotInterpolation::add_snapshot` (`src/snapshot_interpolation.rs:46`).
`now` is `SystemTime::now()` in milliseconds since `UNIX_EPOCH`.  The
instantaneous offset estimate is the unsigned `u128` subtraction
`now.as_millis() - snapshot.time.as_millis()` cast `as i128`; note that the
two `if` blocks of the source are sequential, not `else`-chained. -/
def SnapshotInterpolation.add_snapshot (self : SnapshotInterpolation)
    (snapshot : Snapshot) (now : Nat) : SnapshotInterpolation :=
  let self1 :=
    if self.time_offset = -1 then
      { self with time_offset := u128AsI128 (u128Sub now snapshot.time) }
    else self
  let self2 :=
    if self1.autocorrect_time_offset then
      let time_offset := u128AsI128 (u128Sub now snapshot.time)
      let time_difference := |self1.time_offset - time_offset|
      if 50 < time_difference then { self1 with time_offset := time_difference }
      else self1
    else self1
  { self2 with vault := self2.vault.add snapshot }

/-- `fn time_lerp(start: u128, end: u128, t: f32) -> u128`
(`src/snapshot_interpolation.rs:186`):
`((end - start) as f32 * t) as u128 + start`.  The float-to-integer `as`
cast saturates (NaN and negatives to `0`, `+∞` to `u128::MAX`), and the
final addition wraps on `u128`. -/
def f32AsU128 : F → Nat
  | .fin q => if q < 0 then 0 else min (Int.toNat ⌊q⌋) (U128 - 1)
  | .nan => 0
  | .pinf => U128 - 1
  | .ninf => 0

def time_lerp (start stop : Nat) (t : F) : Nat :=
  (f32AsU128 ((F.fin ((u128Sub stop start : Nat) : ℚ)).mul t) + start) % U128

/-- `Duration::div_duration_f32`: the quotient of the two durations as an
`f32`.  Dividing by a zero-length duration yields `NaN` (for a zero
numerator) or `+∞` (for a positive numerator); otherwise the finite
quotient (exact in the model). -/
def divDurationF32 (a b : Nat) : F :=
  if b = 0 then (if a = 0 then .nan else .pinf) else .fin ((a : ℚ) / (b : ℚ))

/-- The chronological-ordering step at the top of
`SnapshotInterpolation::interpolate` (`src/snapshot_interpolation.rs:72`):
the snapshot with the larger `time` becomes `newer`; on equal times the
first argument does. -/
def orderPair (snapshot_a snapshot_b : Snapshot) : Snapshot × Snapshot :=
  if snapshot_a.time < snapshot_b.time then (snapshot_b, snapshot_a)
  else (snapshot_a, snapshot_b)

/-- The `match (state_value, older_state_value)` arm of `interpolate`
(`src/snapshot_interpolation.rs:103`): same-tag pairs are interpolated with
the tag's routine (older value first), differing tags hit
`panic!("non-matching state value!")`. -/
def interpPair (percent : F) (value older_value : StateValue) :
    RunResult StateValue :=
  match value, older_value with
  | .Number n, .Number onum => .ok (.Number (lerp onum n percent))
  | .Degree d, .Degree od => .ok (.Degree (degree_lerp od d percent))
  | .Radian r, .Radian orad => .ok (.Radian (radian_lerp orad r percent))
  | .Quat q, .Quat oq => .ok (.Quat (oq.lerp q percent))
  | _, _ => .panicked "non-matching state value!"

/-- The `for state_key in state_keys` loop of `interpolate`
(`src/snapshot_interpolation.rs:95`).  Note the source builds a fresh
one-field `SnapolationEntity` and pushes it for every interpolated key, so
an entity with several requested fields contributes several one-field
records. -/
def interpKeys (percent : F) (entity older_entity : SnapolationEntity) :
    List String → RunResult (List SnapolationEntity)
  | [] => .ok []
  | state_key :: rest =>
    match entity.state.lookup state_key with
    | none => interpKeys percent entity older_entity rest
    | some value =>
      match older_entity.state.lookup state_key with
      | none => interpKeys percent entity older_entity rest
      | some older_value =>
        match interpPair percent value older_value with
        | .panicked msg => .panicked msg
        | .ok v =>
          match interpKeys percent entity older_entity rest with
          | .panicked msg => .panicked msg
          | .ok tail => .ok ({ id := entity.id, state := [(state_key, v)] } :: tail)

/-- The `for entity in entities` loop of `interpolate`
(`src/snapshot_interpolation.rs:92`): for each entity of the newer
snapshot's group, find the entity with the same id in the older snapshot's
group (first match) and interpolate the requested keys. -/
def interpEntities (percent : F) (older : Snapshot) (entity_key : String)
    (state_keys : List String) : List SnapolationEntity → RunResult (List SnapolationEntity)
  | [] => .ok []
  | entity :: rest =>
    let this :=
      match older.entities.lookup entity_key with
      | none => RunResult.ok []
      | some older_entities =>
        match older_entities.find? (fun (e : SnapolationEntity) => e.id == entity.id) with
        | none => RunResult.ok []
        | some older_entity => interpKeys percent entity older_entity state_keys
    match this with
    | .panicked msg => .panicked msg
    | .ok here =>
      match interpEntities percent older entity_key state_keys rest with
      | .panicked msg => .panicked msg
      | .ok tail => .ok (here ++ tail)

/-- `SnapshotInterpolation::interpolate` (`src/snapshot_interpolation.rs:64`).
`Duration` subtraction panics on underflow in every build profile (message
`"overflow when subtracting durations"`), which `time - older.time` hits
whenever the target time predates the older snapshot; `newer.time -
older.time` cannot underflow after the ordering step.  On success the
updated engine (its `server_time` reassigned through `time_lerp`, truncated
`as u64`) is returned together with the `InterpolatedSnapshot`. -/
def SnapshotInterpolation.interpolate (self : SnapshotInterpolation)
    (snapshot_a snapshot_b : Snapshot) (time : Nat) (entity_key : String)
    (state_keys : List String) :
    RunResult (SnapshotInterpolation × InterpolatedSnapshot) :=
  let newer := (orderPair snapshot_a snapshot_b).1
  let older := (orderPair snapshot_a snapshot_b).2
  let t0 := newer.time
  let t1 := older.time
  let tn := time
  if tn < t1 then .panicked "overflow when subtracting durations"
  else
    let zero_percent := tn - t1
    let hundred_percent := t0 - t1
    let percent := divDurationF32 zero_percent hundred_percent
    let server_time := time_lerp t1 t0 percent % U64
    match interpEntities percent older entity_key state_keys
        ((newer.entities.lookup entity_key).getD []) with
    | .panicked msg => .panicked msg
    | .ok ents =>
      .ok ({ self with server_time := server_time },
           { entities := ents, percentage := percent,
             newer_id := newer.id, older_id := older.id })

/-- Whether two `StateValue`s carry the same tag, i.e. fall into one of the
four same-constructor arms of the `match` in `interpolate`; differing tags
fall into the `panic!` arm. -/
def tagsMatch : StateValue → StateValue → Bool
  | .Number _, .Number _ => true
  | .Degree _, .Degree _ => true
  | .Radian _, .Radian _ => true
  | .Quat _, .Quat _ => true
  | _, _ => false

/-- Some requested state key is present in both entities' state maps with
differing tags. -/
def keysMismatch (entity older_entity : SnapolationEntity)
    (state_keys : List String) : Bool :=
  state_keys.any fun state_key =>
    match entity.state.lookup state_key, older_entity.state.lookup state_key with
    | some value, some older_value => !(tagsMatch value older_value)
    | _, _ => false

/-- Some entity of the newer snapshot's group is matched by id in the older
snapshot's group and has a requested field present in both with differing
tags. -/
def entitiesMismatch (older : Snapshot) (entity_key : String)
    (state_keys : List String) (entities : List SnapolationEntity) : Bool :=
  entities.any fun entity =>
    match older.entities.lookup entity_key with
    | none => false
    | some older_entities =>
      match older_entities.find? (fun (e : SnapolationEntity) => e.id == entity.id) with
      | none => false
      | some older_entity => keysMismatch entity older_entity state_keys

/-! ### Concrete instances used by the verified claims -/

/-- A snapshot captured at 100 ms (empty entity table). -/
def snapT100 : Snapshot := ⟨1, 100, []⟩

/-- A snapshot captured at 200 ms (empty entity table). -/
def snapT200 : Snapshot := ⟨2, 200, []⟩

/-- A snapshot captured at 300 ms (empty entity table). -/
def snapT300 : Snapshot := ⟨3, 300, []⟩

/-- An entity whose field `"x"` is `Number(5.0)`. -/
def entNum5 : SnapolationEntity := ⟨7, [("x", .Number (.fin 5))]⟩

/-- An entity with the same id whose field `"x"` is `Number(3.0)`. -/
def entNum3 : SnapolationEntity := ⟨7, [("x", .Number (.fin 3))]⟩

/-- An entity with the same id whose field `"x"` is `Degree(3.0)`. -/
def entDeg3 : SnapolationEntity := ⟨7, [("x", .Degree (.fin 3))]⟩

/-- Two snapshots captured at the same instant, 100 ms. -/
def snapEq1 : Snapshot := ⟨11, 100, [("players", [entNum5])]⟩

def snapEq2 : Snapshot := ⟨12, 100, [("players", [entNum3])]⟩

/-- A newer/older pair whose shared field `"x"` is `Number`-tagged in the
newer snapshot and `Degree`-tagged in the older one. -/
def snapMisN : Snapshot := ⟨21, 200, [("players", [entNum5])]⟩

def snapMisO : Snapshot := ⟨22, 100, [("players", [entDeg3])]⟩

/-- A newer/older pair whose shared field `"r"` is `Radian`-tagged in the
newer snapshot and `Quat`-tagged in the older one. -/
def snapWitN : Snapshot := ⟨23, 300, [("npc", [⟨8, [("r", .Radian (.fin 1))]⟩])]⟩

def snapWitO : Snapshot :=
  ⟨24, 200, [("npc", [⟨8, [("r", .Quat ⟨.fin 0, .fin 0, .fin 0, .fin 1⟩)]⟩])]⟩

/-- An engine in its post-construction state except for the given
`time_offset` and `autocorrect_time_offset` (the `Vault` is empty, the
interpolation buffer is 150 ms). -/
def engWith (time_offset : Int) (autocorrect : Bool) : SnapshotInterpolation :=
  ⟨⟨120, []⟩, 150, time_offset, 0, autocorrect⟩

/-! ## Helper lemmas -/

theorem lerp_fin (a b t : ℚ) :
    lerp (.fin a) (.fin b) (.fin t) = .fin ((b - a) * t + a) := rfl

/-- `degree_lerp` on finite inputs, with every `f32` branch condition and
arithmetic step spelled out over `ℚ`. -/
theorem degree_lerp_fin (a b t : ℚ) :
    degree_lerp (.fin a) (.fin b) (.fin t) =
      .fin (if b - a < -180 then
              (if 360 ≤ (b + 360 - a) * t + a then (b + 360 - a) * t + a - 360
               else (b + 360 - a) * t + a)
            else if 180 < b - a then
              (if (b - 360 - a) * t + a < 0 then (b - 360 - a) * t + a + 360
               else (b - 360 - a) * t + a)
            else (b - a) * t + a) := by
  simp only [degree_lerp, lerp, F.sub, F.add, F.mul, F.lt, F.le, decide_eq_true_eq]
  split_ifs <;> rfl

/-- `radian_lerp` on finite inputs, with every `f32` branch condition and
arithmetic step spelled out over `ℚ`. -/
theorem radian_lerp_fin (a b t : ℚ) :
    radian_lerp (.fin a) (.fin b) (.fin t) =
      .fin (if b - a < -pi32 then
              (if pi32 * 2 ≤ (b + pi32 * 2 - a) * t + a then (b + pi32 * 2 - a) * t + a - pi32 * 2
               else (b + pi32 * 2 - a) * t + a)
            else if pi32 < b - a then
              (if (b - pi32 * 2 - a) * t + a < 0 then (b - pi32 * 2 - a) * t + a + pi32 * 2
               else (b - pi32 * 2 - a) * t + a)
            else (b - a) * t + a) := by
  simp only [radian_lerp, lerp, F.sub, F.add, F.mul, F.lt, F.le, decide_eq_true_eq]
  split_ifs <;> rfl

/-! ## C8 — angle wraparound of `degree_lerp` -/

/-- C8: `wrap_angle_lerp(350, 10, 0.5, 360) == 0` — the shortest path
crosses the 0/360 boundary — and in general, when the raw difference
`b - a` is below `-180`, `degree_lerp` lerps toward `b + 360` and subtracts
`360` from any result at or above `360`. -/
theorem C8_degree_wraparound :
    degree_lerp (.fin 350) (.fin 10) (.fin (1 / 2)) = .fin 0 ∧
    ∀ a b t : ℚ, b - a < -180 →
      degree_lerp (.fin a) (.fin b) (.fin t) =
        .fin (if 360 ≤ (b + 360 - a) * t + a then (b + 360 - a) * t + a - 360
              else (b + 360 - a) * t + a) := by
  constructor
  · rw [degree_lerp_fin]; norm_num
  · intro a b t h
    rw [degree_lerp_fin, if_pos h]

/-- Witness for C8: the general branch description instantiated at
`a = 350`, `b = 10`, `t = 1/2`. -/
theorem C8_witness :
    degree_lerp (.fin 350) (.fin 10) (.fin (1 / 2)) =
      .fin (if 360 ≤ ((10 : ℚ) + 360 - 350) * (1 / 2) + 350
            then (10 + 360 - 350) * (1 / 2) + 350 - 360
            else (10 + 360 - 350) * (1 / 2) + 350) :=
  C8_degree_wraparound.2 350 10 (1 / 2) (by norm_num)

/-! ## C9 — endpoint reproduction of the scalar interpolation routines -/

/-- Counterexample to C9 as stated: for the `Degree`-tagged pair with older
value `400` and newer value `0`, interpolating at `t = 0` yields `40`, not
the older value `400` (the first branch of `degree_lerp` re-normalizes the
out-of-range start value). -/
theorem C9_counterexample :
    degree_lerp (.fin 400) (.fin 0) (.fin 0) = .fin 40 ∧ F.fin 40 ≠ F.fin 400 := by
  constructor
  · rw [degree_lerp_fin]; norm_num
  · intro h
    rw [F.fin.injEq] at h
    norm_num at h

/-- C9 amended: `lerp` reproduces the endpoints exactly for all values, and
`degree_lerp`/`radian_lerp` reproduce the endpoints exactly for values
within the canonical angular range (`[0, 360)` degrees, `[0, PI * 2)`
radians). -/
theorem C9_endpoints : ∀ a b : ℚ,
    (lerp (.fin a) (.fin b) (.fin 0) = .fin a ∧
     lerp (.fin a) (.fin b) (.fin 1) = .fin b) ∧
    (0 ≤ a → a < 360 → 0 ≤ b → b < 360 →
      degree_lerp (.fin a) (.fin b) (.fin 0) = .fin a ∧
      degree_lerp (.fin a) (.fin b) (.fin 1) = .fin b) ∧
    (0 ≤ a → a < pi32 * 2 → 0 ≤ b → b < pi32 * 2 →
      radian_lerp (.fin a) (.fin b) (.fin 0) = .fin a ∧
      radian_lerp (.fin a) (.fin b) (.fin 1) = .fin b) := by
  intro a b
  refine ⟨⟨by rw [lerp_fin]; congr 1; ring, by rw [lerp_fin]; congr 1; ring⟩,
    fun ha1 ha2 hb1 hb2 => ⟨?_, ?_⟩, fun ha1 ha2 hb1 hb2 => ⟨?_, ?_⟩⟩ <;>
      [rw [degree_lerp_fin]; rw [degree_lerp_fin]; rw [radian_lerp_fin]; rw [radian_lerp_fin]] <;>
    (congr 1
     split_ifs with h1 h2 h3 h4 <;>
       first
         | ring1
         | (ring_nf at h2; exfalso; linarith)
         | (ring_nf at h4; exfalso; linarith))

/-- Witness for C9 amended, at `a = 1`, `b = 2` (within both canonical
ranges). -/
theorem C9_witness :
    (lerp (.fin 1) (.fin 2) (.fin 0) = .fin 1 ∧
     lerp (.fin 1) (.fin 2) (.fin 1) = .fin 2) ∧
    (degree_lerp (.fin 1) (.fin 2) (.fin 0) = .fin 1 ∧
     degree_lerp (.fin 1) (.fin 2) (.fin 1) = .fin 2) ∧
    (radian_lerp (.fin 1) (.fin 2) (.fin 0) = .fin 1 ∧
     radian_lerp (.fin 1) (.fin 2) (.fin 1) = .fin 2) :=
  ⟨(C9_endpoints 1 2).1,
   (C9_endpoints 1 2).2.1 (by norm_num) (by norm_num) (by norm_num) (by norm_num),
   (C9_endpoints 1 2).2.2 (by norm_num) (by norm_num [pi32]) (by norm_num) (by norm_num [pi32])⟩

/-! ## C6 — the rotation interpolation routine -/

/-- Counterexample to C6 as stated: the routine applied to `Quat`-tagged
fields is `Vec4::lerp`, and at `t = 1/2` between the unit quaternions
`(1,0,0,0)` and `(0,1,0,0)` it returns `(1/2, 1/2, 0, 0)`, whose squared
norm is `1/2`, not a unit quaternion (hence not spherical interpolation on
the great-circle arc).  All values here are small dyadic rationals on which
`f32` arithmetic is exact. -/
theorem C6_counterexample :
    Vec4.normSq ⟨.fin 1, .fin 0, .fin 0, .fin 0⟩ = .fin 1 ∧
    Vec4.normSq ⟨.fin 0, .fin 1, .fin 0, .fin 0⟩ = .fin 1 ∧
    interpPair (.fin (1 / 2)) (.Quat ⟨.fin 0, .fin 1, .fin 0, .fin 0⟩)
        (.Quat ⟨.fin 1, .fin 0, .fin 0, .fin 0⟩) =
      .ok (.Quat (Vec4.lerp ⟨.fin 1, .fin 0, .fin 0, .fin 0⟩
        ⟨.fin 0, .fin 1, .fin 0, .fin 0⟩ (.fin (1 / 2)))) ∧
    Vec4.lerp ⟨.fin 1, .fin 0, .fin 0, .fin 0⟩ ⟨.fin 0, .fin 1, .fin 0, .fin 0⟩ (.fin (1 / 2)) =
      ⟨.fin (1 / 2), .fin (1 / 2), .fin 0, .fin 0⟩ ∧
    Vec4.normSq ⟨.fin (1 / 2), .fin (1 / 2), .fin 0, .fin 0⟩ ≠ .fin 1 := by
  refine ⟨?_, ?_, rfl, ?_, ?_⟩ <;>
    norm_num [Vec4.normSq, Vec4.lerp, F.mul, F.add, F.sub, Vec4.mk.injEq]

/-- C6 amended: the rotation interpolation used for `Quat`-tagged fields is
componentwise linear interpolation `self + (rhs - self) * s`; it reproduces
the endpoint quaternions at `t = 0` and `t = 1` but does not interpolate
spherically. -/
theorem C6_quat_lerp : ∀ a1 a2 a3 a4 b1 b2 b3 b4 t : ℚ,
    Vec4.lerp ⟨.fin a1, .fin a2, .fin a3, .fin a4⟩ ⟨.fin b1, .fin b2, .fin b3, .fin b4⟩ (.fin 0) =
      ⟨.fin a1, .fin a2, .fin a3, .fin a4⟩ ∧
    Vec4.lerp ⟨.fin a1, .fin a2, .fin a3, .fin a4⟩ ⟨.fin b1, .fin b2, .fin b3, .fin b4⟩ (.fin 1) =
      ⟨.fin b1, .fin b2, .fin b3, .fin b4⟩ ∧
    Vec4.lerp ⟨.fin a1, .fin a2, .fin a3, .fin a4⟩ ⟨.fin b1, .fin b2, .fin b3, .fin b4⟩ (.fin t) =
      ⟨.fin (a1 + (b1 - a1) * t), .fin (a2 + (b2 - a2) * t),
       .fin (a3 + (b3 - a3) * t), .fin (a4 + (b4 - a4) * t)⟩ := by
  intro a1 a2 a3 a4 b1 b2 b3 b4 t
  refine ⟨?_, ?_, ?_⟩ <;>
      simp only [Vec4.lerp, F.sub, F.mul, F.add, Vec4.mk.injEq, F.fin.injEq] <;>
    refine ⟨by ring, by ring, by ring, by ring⟩

/-! ## C4, C7, C10 — the clock-offset estimator of `add_snapshot` -/

/-- For operands below `2 ^ 127` (every real millisecond count is), the
wrapped `u128` subtraction reinterpreted `as i128` is the exact signed
difference. -/
theorem u128Sub_asI128 (a b : Nat) (ha : a < 2 ^ 127) (hb : b < 2 ^ 127) :
    u128AsI128 (u128Sub a b) = (a : Int) - b := by
  simp only [u128Sub, u128AsI128, U128]
  split_ifs <;> omega

/-- On an engine whose offset is uninitialized (`-1`), `add_snapshot` sets
the offset to `now - snapshot.time`, whatever `autocorrect_time_offset`
is: the initialization branch assigns exactly that value, and the
autocorrect block then recomputes the same estimate, so its discrepancy is
`0 ≤ 50` and the offset is left unchanged. -/
theorem add_snapshot_offset_uninit (self : SnapshotInterpolation)
    (snapshot : Snapshot) (now : Nat) (hinit : self.time_offset = -1)
    (hnow : now < 2 ^ 127) (htime : snapshot.time < 2 ^ 127) :
    (self.add_snapshot snapshot now).time_offset = (now : Int) - snapshot.time := by
  have hX := u128Sub_asI128 now snapshot.time hnow htime
  cases hac : self.autocorrect_time_offset <;>
    simp [SnapshotInterpolation.add_snapshot, hinit, hX, hac]

/-- C7: the first `add_snapshot` call on an engine with an uninitialized
clock offset sets the offset to `now - snapshot.time` (milliseconds),
regardless of the `autocorrect_time_offset` flag. -/
theorem C7_offset_init (self : SnapshotInterpolation) (snapshot : Snapshot)
    (now : Nat) (ac : Bool) (hinit : self.time_offset = -1)
    (hnow : now < 2 ^ 127) (htime : snapshot.time < 2 ^ 127) :
    (({ self with autocorrect_time_offset := ac }).add_snapshot snapshot now).time_offset =
      (now : Int) - snapshot.time :=
  add_snapshot_offset_uninit { self with autocorrect_time_offset := ac } snapshot now hinit hnow htime

/-- Witness for C7: a concrete first ingestion, with autocorrect enabled
and disabled. -/
theorem C7_witness :
    (({ engWith (-1) true with autocorrect_time_offset := true }).add_snapshot
        ⟨51, 400, []⟩ 1000).time_offset = (1000 : Int) - 400 ∧
    (({ engWith (-1) true with autocorrect_time_offset := false }).add_snapshot
        ⟨51, 400, []⟩ 1000).time_offset = (1000 : Int) - 400 :=
  ⟨C7_offset_init (engWith (-1) true) ⟨51, 400, []⟩ 1000 true rfl (by norm_num) (by norm_num),
   C7_offset_init (engWith (-1) true) ⟨51, 400, []⟩ 1000 false rfl (by norm_num) (by norm_num)⟩

/-- C4: on an engine whose offset is initialized and whose autocorrect flag
is enabled, `add_snapshot` replaces the stored offset by the magnitude of
the discrepancy `|stored - (now - snapshot.time)|` when that magnitude
exceeds 50 ms, and leaves it unchanged otherwise. -/
theorem C4_autocorrect (self : SnapshotInterpolation) (snapshot : Snapshot)
    (now : Nat) (hinit : self.time_offset ≠ -1)
    (hauto : self.autocorrect_time_offset = true)
    (hnow : now < 2 ^ 127) (htime : snapshot.time < 2 ^ 127) :
    (self.add_snapshot snapshot now).time_offset =
      if 50 < |self.time_offset - ((now : Int) - snapshot.time)|
      then |self.time_offset - ((now : Int) - snapshot.time)|
      else self.time_offset := by
  have hX := u128Sub_asI128 now snapshot.time hnow htime
  simp only [SnapshotInterpolation.add_snapshot, if_neg hinit, hauto, hX, if_true]
  split_ifs <;> rfl

/-- Witness for C4: stored offset `10`, instantaneous estimate `200`,
discrepancy `190 > 50`, so the offset becomes `190` (not `200`). -/
theorem C4_witness :
    ((engWith 10 true).add_snapshot ⟨41, 800, []⟩ 1000).time_offset = 190 := by
  rw [C4_autocorrect (engWith 10 true) ⟨41, 800, []⟩ 1000 (by norm_num [engWith])
    rfl (by norm_num) (by norm_num)]
  norm_num [engWith]

/-- Counterexample to C10 as stated: a snapshot timestamped 200 ms ingested
at local time 100 ms does produce the negative offset `-100 = 100 - 200`
(the wrapped `u128` difference reinterpreted `as i128` is the exact signed
difference), rather than the claimed ill-defined underflow. -/
theorem C10_counterexample :
    ((engWith (-1) false).add_snapshot ⟨31, 200, []⟩ 100).time_offset = (100 : Int) - 200 ∧
    (100 : Int) - 200 < 0 := by
  constructor <;> decide

/-- C10 amended: for `snapshot.time ≤ now` the first-ingestion offset is
the well-defined non-negative difference, never the `-1` sentinel; for a
future-dated snapshot the wrapped subtraction reinterpreted `as i128`
yields the negative difference `now - snapshot.time`, which collides with
the `-1` uninitialized sentinel exactly when the snapshot is 1 ms in the
future. -/
theorem C10_offset_domain (self : SnapshotInterpolation) (snapshot : Snapshot)
    (now : Nat) (hinit : self.time_offset = -1)
    (hnow : now < 2 ^ 127) (htime : snapshot.time < 2 ^ 127) :
    (snapshot.time ≤ now →
      (self.add_snapshot snapshot now).time_offset = (now : Int) - snapshot.time ∧
      0 ≤ (self.add_snapshot snapshot now).time_offset ∧
      (self.add_snapshot snapshot now).time_offset ≠ -1) ∧
    (now < snapshot.time →
      (self.add_snapshot snapshot now).time_offset = (now : Int) - snapshot.time ∧
      (self.add_snapshot snapshot now).time_offset < 0 ∧
      ((self.add_snapshot snapshot now).time_offset = -1 ↔ snapshot.time = now + 1)) := by
  have h := add_snapshot_offset_uninit self snapshot now hinit hnow htime
  constructor
  · intro hle
    refine ⟨h, ?_, ?_⟩ <;> rw [h] <;> omega
  · intro hlt
    refine ⟨h, by rw [h]; omega, ?_⟩
    rw [h]
    omega

/-- Witness for C10 amended: a past snapshot gives offset `600 ≥ 0`; a
snapshot 1 ms in the future collides with the `-1` sentinel. -/
theorem C10_witness :
    ((engWith (-1) true).add_snapshot ⟨61, 400, []⟩ 1000).time_offset = (1000 : Int) - 400 ∧
    ((engWith (-1) true).add_snapshot ⟨62, 1001, []⟩ 1000).time_offset = -1 := by
  constructor
  · exact ((C10_offset_domain (engWith (-1) true) ⟨61, 400, []⟩ 1000 rfl (by norm_num)
      (by norm_num)).1 (by norm_num)).1
  · exact ((C10_offset_domain (engWith (-1) true) ⟨62, 1001, []⟩ 1000 rfl (by norm_num)
      (by norm_num)).2 (by norm_num)).2.2.mpr rfl

/-! ## C2 — capacity bound and eviction policy of `Vault::add` -/

theorem sortDesc_perm (l : List Snapshot) : List.Perm (sortDesc l) l :=
  List.perm_insertionSort timeDesc l

theorem sortDesc_sorted (l : List Snapshot) : (sortDesc l).Pairwise timeDesc :=
  List.sorted_insertionSort timeDesc l

/-- One `add` keeps the size within a positive capacity. -/
theorem vault_add_length (v : Vault) (s : Snapshot) (hc : 1 ≤ v.vault_size)
    (hlen : v.vault.length ≤ v.vault_size) :
    (v.add s).vault.length ≤ v.vault_size := by
  have h1 : (sortDesc v.vault).length = v.vault.length := (sortDesc_perm v.vault).length_eq
  simp only [Vault.add, List.length_cons]
  split_ifs with h
  · rw [List.length_dropLast, h1]
    rw [h1] at h
    omega
  · rw [h1] at h ⊢
    omega

/-- Folding `add` over any list of snapshots preserves the size bound and
the capacity. -/
theorem foldl_add_length (snaps : List Snapshot) :
    ∀ v : Vault, 1 ≤ v.vault_size → v.vault.length ≤ v.vault_size →
      (snaps.foldl Vault.add v).vault.length ≤ (snaps.foldl Vault.add v).vault_size ∧
      (snaps.foldl Vault.add v).vault_size = v.vault_size := by
  induction snaps with
  | nil => exact fun v _ h2 => ⟨h2, rfl⟩
  | cons s rest ih =>
    intro v h1 h2
    have hsize : (v.add s).vault_size = v.vault_size := rfl
    have hrec := ih (v.add s) (hsize ▸ h1) (hsize ▸ vault_add_length v s h1 h2)
    simpa only [List.foldl_cons, hsize] using hrec

/-- `add` on a store at (positive) capacity: the element popped from the
end of the descending sort is a minimal-`time` member of the pre-insert
set, and exactly one snapshot is evicted for the one inserted. -/
theorem vault_add_evicts (v : Vault) (s : Snapshot) (hc : 1 ≤ v.vault_size)
    (hfull : v.vault.length = v.vault_size) :
    ∃ evicted kept, sortDesc v.vault = kept ++ [evicted] ∧
      evicted ∈ v.vault ∧ (∀ x ∈ v.vault, evicted.time ≤ x.time) ∧
      (v.add s).vault = s :: kept ∧
      (v.add s).vault.length = v.vault_size := by
  have hlen : (sortDesc v.vault).length = v.vault.length := (sortDesc_perm v.vault).length_eq
  have hne : sortDesc v.vault ≠ [] := by
    intro h
    rw [h] at hlen
    simp only [List.length_nil] at hlen
    omega
  have hdecomp := List.dropLast_append_getLast hne
  refine ⟨(sortDesc v.vault).getLast hne, (sortDesc v.vault).dropLast, hdecomp.symm,
    ?_, ?_, ?_, ?_⟩
  · exact (sortDesc_perm v.vault).subset (List.getLast_mem hne)
  · intro x hx
    have hx' : x ∈ (sortDesc v.vault).dropLast ++ [(sortDesc v.vault).getLast hne] :=
      hdecomp.symm ▸ (sortDesc_perm v.vault).symm.subset hx
    have hpair : ((sortDesc v.vault).dropLast ++
        [(sortDesc v.vault).getLast hne]).Pairwise timeDesc :=
      hdecomp.symm ▸ sortDesc_sorted v.vault
    rcases List.mem_append.mp hx' with h | h
    · exact (List.pairwise_append.mp hpair).2.2 x h _ (List.mem_singleton_self _)
    · rw [List.mem_singleton.mp h]
  · simp only [Vault.add]
    rw [if_pos (by rw [hlen, hfull])]
  · simp only [Vault.add, List.length_cons]
    rw [if_pos (by rw [hlen, hfull]), List.length_dropLast, hlen, hfull]
    omega

/-- `add` on a store strictly below capacity evicts nothing. -/
theorem vault_add_below (v : Vault) (s : Snapshot) (hlt : v.vault.length < v.vault_size) :
    (v.add s).vault = s :: sortDesc v.vault := by
  simp only [Vault.add]
  rw [if_neg]
  rw [(sortDesc_perm v.vault).length_eq]
  omega

/-- Counterexample to C2 as stated: on a store created with capacity `0`,
a single `add` makes the size `1`, exceeding the capacity (the source pops
at most one element before unconditionally inserting). -/
theorem C2_counterexample :
    ((Vault.mk 0 []).add snapT100).vault_size < ((Vault.mk 0 []).add snapT100).vault.length := by
  decide

/-- C2 amended (capacity at least 1): starting from an empty store of
capacity `c ≥ 1`, the size never exceeds `c` after any sequence of `add`
calls; an `add` at capacity evicts exactly the final element of the
descending sort, a minimal-`time` member of the pre-insert set; an `add`
below capacity evicts nothing. -/
theorem C2_capacity_eviction :
    (∀ c : Nat, 1 ≤ c → ∀ snaps : List Snapshot,
      (snaps.foldl Vault.add ⟨c, []⟩).vault.length ≤ c) ∧
    (∀ (v : Vault) (s : Snapshot), 1 ≤ v.vault_size → v.vault.length = v.vault_size →
      ∃ evicted kept, sortDesc v.vault = kept ++ [evicted] ∧
        evicted ∈ v.vault ∧ (∀ x ∈ v.vault, evicted.time ≤ x.time) ∧
        (v.add s).vault = s :: kept ∧ (v.add s).vault.length = v.vault_size) ∧
    (∀ (v : Vault) (s : Snapshot), v.vault.length < v.vault_size →
      (v.add s).vault = s :: sortDesc v.vault) := by
  refine ⟨?_, vault_add_evicts, vault_add_below⟩
  intro c hc snaps
  have h := foldl_add_length snaps ⟨c, []⟩ hc (by simp)
  rw [h.2] at h
  exact h.1

/-- Witness for C2 amended: a capacity-1 store stays at size ≤ 1 over three
adds, and adding to a full capacity-1 store evicts its only (hence
minimal-time) element. -/
theorem C2_witness :
    (([snapT100, snapT200, snapT300].foldl Vault.add ⟨1, []⟩).vault.length ≤ 1) ∧
    (∃ evicted kept, sortDesc (Vault.mk 1 [snapT100]).vault = kept ++ [evicted] ∧
      evicted ∈ (Vault.mk 1 [snapT100]).vault ∧
      (∀ x ∈ (Vault.mk 1 [snapT100]).vault, evicted.time ≤ x.time) ∧
      ((Vault.mk 1 [snapT100]).add snapT200).vault = snapT200 :: kept ∧
      ((Vault.mk 1 [snapT100]).add snapT200).vault.length = 1) :=
  ⟨C2_capacity_eviction.1 1 (by norm_num) [snapT100, snapT200, snapT300],
   C2_capacity_eviction.2.1 (Vault.mk 1 [snapT100]) snapT200 (by norm_num) rfl⟩

/-! ## C1 — the bracket search `get_two_closest` -/

theorem usizeSub_zero_one : usizeSub 0 1 = USIZE - 1 := by
  simp only [usizeSub, USIZE]
  omega

theorem usizeSub_one_of_pos (i : Nat) (h1 : 1 ≤ i) (h2 : i < USIZE) :
    usizeSub i 1 = i - 1 := by
  simp only [usizeSub, USIZE] at h2 ⊢
  omega

/-- Full characterization of the scan loop of `get_two_closest`, by
induction along the descending-sorted list: `pre` is the already-scanned
prefix (every element strictly newer than the target), `rest` the remaining
suffix, and the enumeration index equals `pre.length`. -/
theorem getTwoClosestGo_spec (t : Nat) (S : List Snapshot)
    (hlen : S.length < USIZE) (hsort : S.Pairwise timeDesc) :
    ∀ (rest pre : List Snapshot), S = pre ++ rest → (∀ x ∈ pre, t < x.time) →
      (getTwoClosestGo S t rest pre.length = none → ∀ x ∈ rest, t < x.time) ∧
      (∀ res, getTwoClosestGo S t rest pre.length = some res →
        ∃ older, res.2 = some older ∧ older ∈ rest ∧ older.time ≤ t ∧
          (∀ x ∈ S, x.time ≤ t → x.time ≤ older.time) ∧
          (res.1 = none → ∀ x ∈ S, x.time ≤ older.time) ∧
          (∀ newer, res.1 = some newer → newer ∈ S ∧ t < newer.time ∧
            ∀ x ∈ S, t < x.time → newer.time ≤ x.time)) := by
  intro rest
  induction rest with
  | nil =>
    intro pre hS hpre
    refine ⟨fun _ x hx => absurd hx (List.not_mem_nil x), fun res hres => ?_⟩
    simp [getTwoClosestGo] at hres
  | cons s rest ih =>
    intro pre hS hpre
    have hrestle : ∀ x ∈ rest, x.time ≤ s.time := by
      have hp : (s :: rest).Pairwise timeDesc :=
        (List.pairwise_append.mp (hS ▸ hsort)).2.1
      exact (List.pairwise_cons.mp hp).1
    by_cases hst : s.time ≤ t
    · constructor
      · intro hnone
        rw [getTwoClosestGo, if_pos hst] at hnone
        exact absurd hnone (by simp)
      · intro res hres
        rw [getTwoClosestGo, if_pos hst] at hres
        have hres' : res = (S[usizeSub pre.length 1]?, some s) := (Option.some.inj hres).symm
        have holder_max : ∀ x ∈ S, x.time ≤ t → x.time ≤ s.time := by
          intro x hx hxt
          rcases List.mem_append.mp (hS ▸ hx) with h | h
          · exact absurd hxt (by have := hpre x h; omega)
          · rcases List.mem_cons.mp h with h | h
            · rw [h]
            · exact hrestle x h
        refine ⟨s, by rw [hres'], List.mem_cons_self s rest, hst, holder_max, ?_, ?_⟩
        · intro hnone0
          have hnone : S[usizeSub pre.length 1]? = none := by rw [hres'] at hnone0; exact hnone0
          rcases List.eq_nil_or_concat pre with hpre0 | ⟨pre', last, hpre1⟩
          · intro x hx
            rw [hpre0] at hS
            rcases List.mem_cons.mp (hS ▸ hx) with h | h
            · rw [h]
            · exact hrestle x h
          · exfalso
            rw [List.concat_eq_append] at hpre1
            have hplen : 1 ≤ pre.length := by rw [hpre1]; simp
            have hplenS : pre.length ≤ S.length := by
              rw [hS]; simp only [List.length_append]; omega
            rw [usizeSub_one_of_pos pre.length hplen (by omega)] at hnone
            have hidx : pre.length - 1 < S.length := by omega
            rw [List.getElem?_eq_getElem hidx] at hnone
            exact Option.noConfusion hnone
        · intro newer hnewer0
          have hnewer : S[usizeSub pre.length 1]? = some newer := by
            rw [hres'] at hnewer0; exact hnewer0
          rcases List.eq_nil_or_concat pre with hpre0 | ⟨pre', last, hpre1⟩
          · exfalso
            rw [hpre0] at hnewer
            simp only [List.length_nil, usizeSub_zero_one] at hnewer
            rw [List.getElem?_eq_none (by omega)] at hnewer
            exact Option.noConfusion hnewer
          · rw [List.concat_eq_append] at hpre1
            have hplen : 1 ≤ pre.length := by rw [hpre1]; simp
            have hplenS : pre.length ≤ S.length := by
              rw [hS]; simp only [List.length_append]; omega
            rw [usizeSub_one_of_pos pre.length hplen (by omega)] at hnewer
            have hpre_at : S[pre.length - 1]? = pre[pre.length - 1]? := by
              rw [hS]
              exact List.getElem?_append_left (by omega)
            have hlast : pre[pre.length - 1]? = some last := by
              rw [hpre1]
              simp only [List.length_append, List.length_cons, List.length_nil]
              rw [List.getElem?_append_right (by omega)]
              simp
            rw [hpre_at, hlast] at hnewer
            have hnewer' : newer = last := (Option.some.inj hnewer).symm
            subst hnewer'
            have hlastmem : newer ∈ pre := by rw [hpre1]; simp
            refine ⟨by rw [hS]; exact List.mem_append_left _ hlastmem,
              hpre newer hlastmem, ?_⟩
            intro x hx hxt
            rcases List.mem_append.mp (hS ▸ hx) with h | h
            · have hpairpre : pre.Pairwise timeDesc :=
                (List.pairwise_append.mp (hS ▸ hsort)).1
              have hpairpre' : (pre' ++ [newer]).Pairwise timeDesc := by
                rw [← hpre1]; exact hpairpre
              rcases List.mem_append.mp (by rw [← hpre1]; exact h :
                  x ∈ pre' ++ [newer]) with h' | h'
              · exact (List.pairwise_append.mp hpairpre').2.2 x h' newer
                  (List.mem_singleton_self _)
              · rw [List.mem_singleton.mp h']
            · exfalso
              have : x.time ≤ s.time := by
                rcases List.mem_cons.mp h with h' | h'
                · rw [h']
                · exact hrestle x h'
              omega
    · have hS' : S = (pre ++ [s]) ++ rest := by
        rw [hS, List.append_assoc]
        rfl
      have hpre' : ∀ x ∈ pre ++ [s], t < x.time := by
        intro x hx
        rcases List.mem_append.mp hx with h | h
        · exact hpre x h
        · rw [List.mem_singleton.mp h]; omega
      have hrec := ih (pre ++ [s]) hS' hpre'
      have hlen' : (pre ++ [s]).length = pre.length + 1 := by simp
      rw [hlen'] at hrec
      constructor
      · intro hnone x hx
        rw [getTwoClosestGo, if_neg hst] at hnone
        rcases List.mem_cons.mp hx with h | h
        · rw [h]; omega
        · exact hrec.1 hnone x h
      · intro res hres
        rw [getTwoClosestGo, if_neg hst] at hres
        obtain ⟨older, h1, h2, h3, h4, h5, h6⟩ := hrec.2 res hres
        exact ⟨older, h1, List.mem_cons_of_mem s h2, h3, h4, h5, h6⟩

/-- C1: for the store `{100, 200, 300}` ms, `get_two_closest` returns
`(newer=@300, older=@200)` at 250 ms, `None` at 50 ms and
`(None, older=@300)` at 350 ms; and in general it returns, as `older`, a
newest snapshot at-or-before the target, paired as `newer` with a next-newer
snapshot (minimal `time` among those strictly newer than the target) when
one exists, with `newer = None` exactly when `older` is the newest entry,
and `None` overall when no snapshot is at-or-before the target. -/
theorem C1_get_two_closest :
    (Vault.get_two_closest ⟨120, [snapT100, snapT200, snapT300]⟩ 250 =
      some (some snapT300, some snapT200)) ∧
    (Vault.get_two_closest ⟨120, [snapT100, snapT200, snapT300]⟩ 50 = none) ∧
    (Vault.get_two_closest ⟨120, [snapT100, snapT200, snapT300]⟩ 350 =
      some (none, some snapT300)) ∧
    ∀ (v : Vault) (t : Nat), v.vault.length < USIZE →
      (v.get_two_closest t = none ↔ ∀ s ∈ v.vault, t < s.time) ∧
      ∀ res, v.get_two_closest t = some res →
        ∃ older, res.2 = some older ∧ older ∈ v.vault ∧ older.time ≤ t ∧
          (∀ s ∈ v.vault, s.time ≤ t → s.time ≤ older.time) ∧
          (res.1 = none → ∀ s ∈ v.vault, s.time ≤ older.time) ∧
          (∀ newer, res.1 = some newer → newer ∈ v.vault ∧ t < newer.time ∧
            ∀ s ∈ v.vault, t < s.time → newer.time ≤ s.time) := by
  refine ⟨by decide, by decide, by decide, ?_⟩
  intro v t hv
  have hperm := sortDesc_perm v.vault
  have hspec := getTwoClosestGo_spec t (sortDesc v.vault)
    (by rw [hperm.length_eq]; exact hv) (sortDesc_sorted v.vault)
    (sortDesc v.vault) [] rfl (by intro x hx; exact absurd hx (List.not_mem_nil x))
  have hdef : v.get_two_closest t =
      getTwoClosestGo (sortDesc v.vault) t (sortDesc v.vault) 0 := rfl
  constructor
  · constructor
    · intro hnone s hs
      exact hspec.1 (hdef ▸ hnone) s (hperm.symm.subset hs)
    · intro hall
      cases hreseq : v.get_two_closest t with
      | none => rfl
      | some res =>
        obtain ⟨older, _, hmem, hole, _⟩ := hspec.2 res (hdef ▸ hreseq)
        have := hall older (hperm.subset hmem)
        omega
  · intro res hres
    obtain ⟨older, h1, h2, h3, h4, h5, h6⟩ := hspec.2 res (hdef ▸ hres)
    refine ⟨older, h1, hperm.subset h2, h3,
      fun s hs => h4 s (hperm.symm.subset hs),
      fun hn s hs => h5 hn s (hperm.symm.subset hs), ?_⟩
    intro newer hn
    obtain ⟨hm, ht, hmin⟩ := h6 newer hn
    exact ⟨hperm.subset hm, ht, fun s hs hts => hmin s (hperm.symm.subset hs) hts⟩

/-- Witness for C1's general part: instantiated on the demo store at target
50 ms, where no snapshot is at-or-before the target. -/
theorem C1_witness :
    ∀ s ∈ (Vault.mk 120 [snapT100, snapT200, snapT300]).vault, (50 : Nat) < s.time :=
  ((C1_get_two_closest.2.2.2 (Vault.mk 120 [snapT100, snapT200, snapT300]) 50
    (by norm_num [USIZE])).1).mp (by decide)

/-! ## C3 — the degenerate (zero-length) time interval -/

/-- C3 (evidence of the divergence): interpolating two snapshots captured
at the same instant divides by the zero-length interval, so the fraction is
`NaN` (`0 / 0` here), which is not the neutral value `0` and is not
surfaced as an error: the call returns an ordinary `ok` result whose
`percentage` is `NaN` and whose interpolated `Number` field is `NaN`. -/
theorem C3_degenerate_nan :
    (engWith 0 true).interpolate snapEq1 snapEq2 100 "players" ["x"] =
      .ok ({ engWith 0 true with server_time := 100 },
        { entities := [⟨7, [("x", .Number .nan)]⟩], percentage := .nan,
          newer_id := 11, older_id := 12 }) ∧
    F.nan ≠ F.fin 0 := by
  constructor
  · norm_num [SnapshotInterpolation.interpolate, orderPair, divDurationF32, time_lerp,
      f32AsU128, u128Sub, U128, U64, interpEntities, interpKeys, interpPair, lerp,
      F.sub, F.mul, F.add, snapEq1, snapEq2, entNum5, entNum3, engWith, List.lookup]
  · intro h
    exact F.noConfusion h

/-! ## C5 — type mismatch between matched fields -/

theorem interpPair_mismatch (percent : F) (value older_value : StateValue)
    (h : tagsMatch value older_value = false) :
    interpPair percent value older_value = .panicked "non-matching state value!" := by
  cases value <;> cases older_value <;> simp_all [tagsMatch, interpPair]

theorem interpPair_ok (percent : F) (value older_value : StateValue)
    (h : tagsMatch value older_value = true) :
    ∃ w, interpPair percent value older_value = .ok w := by
  cases value <;> cases older_value <;> simp [tagsMatch] at h <;> exact ⟨_, rfl⟩

/-- A requested key with differing tags somewhere in the key list makes the
per-key loop abort with the source's panic message. -/
theorem interpKeys_mismatch (percent : F) (entity older_entity : SnapolationEntity) :
    ∀ state_keys : List String, keysMismatch entity older_entity state_keys = true →
      interpKeys percent entity older_entity state_keys =
        .panicked "non-matching state value!" := by
  intro ks
  induction ks with
  | nil => intro h; simp [keysMismatch] at h
  | cons k rest ih =>
    intro h
    rw [keysMismatch, List.any_cons] at h
    rw [interpKeys]
    cases hv : entity.state.lookup k with
    | none =>
      simp only [hv]
      apply ih
      rw [keysMismatch]
      simpa [hv] using h
    | some value =>
      cases hov : older_entity.state.lookup k with
      | none =>
        simp only [hv, hov]
        apply ih
        rw [keysMismatch]
        simpa [hv, hov] using h
      | some older_value =>
        simp only [hv, hov]
        cases htag : tagsMatch value older_value with
        | false => rw [interpPair_mismatch percent value older_value htag]
        | true =>
          obtain ⟨w, hw⟩ := interpPair_ok percent value older_value htag
          rw [hw]
          have hrest : keysMismatch entity older_entity rest = true := by
            rw [keysMismatch]
            simpa [hv, hov, htag] using h
          rw [ih hrest]

/-- Without any tag mismatch among the requested keys, the per-key loop
cannot hit the panic arm. -/
theorem interpKeys_ok (percent : F) (entity older_entity : SnapolationEntity) :
    ∀ state_keys : List String, keysMismatch entity older_entity state_keys = false →
      ∃ l, interpKeys percent entity older_entity state_keys = .ok l := by
  intro ks
  induction ks with
  | nil => exact fun _ => ⟨[], rfl⟩
  | cons k rest ih =>
    intro h
    rw [keysMismatch, List.any_cons, Bool.or_eq_false_iff] at h
    have hrest : keysMismatch entity older_entity rest = false := by
      rw [keysMismatch]; exact h.2
    obtain ⟨l, hl⟩ := ih hrest
    rw [interpKeys]
    cases hv : entity.state.lookup k with
    | none => exact ⟨l, by simp only [hv]; exact hl⟩
    | some value =>
      cases hov : older_entity.state.lookup k with
      | none => exact ⟨l, by simp only [hv, hov]; exact hl⟩
      | some older_value =>
        have htag : tagsMatch value older_value = true := by
          have := h.1
          rw [hv, hov] at this
          simpa using this
        obtain ⟨w, hw⟩ := interpPair_ok percent value older_value htag
        refine ⟨{ id := entity.id, state := [(k, w)] } :: l, ?_⟩
        simp only [hv, hov, hw, hl]

/-- A matched entity with a mismatched requested field anywhere in the
newer snapshot's group list makes the per-entity loop abort with the
source's panic message. -/
theorem interpEntities_mismatch (percent : F) (older : Snapshot)
    (entity_key : String) (state_keys : List String) :
    ∀ es : List SnapolationEntity,
      entitiesMismatch older entity_key state_keys es = true →
      interpEntities percent older entity_key state_keys es =
        .panicked "non-matching state value!" := by
  intro es
  induction es with
  | nil => intro h; simp [entitiesMismatch] at h
  | cons entity rest ih =>
    intro h
    rw [entitiesMismatch, List.any_cons] at h
    rw [interpEntities]
    cases hoe : older.entities.lookup entity_key with
    | none =>
      have hrest : entitiesMismatch older entity_key state_keys rest = true := by
        rw [entitiesMismatch]
        simp [hoe] at h
      simp only [hoe, ih hrest]
    | some older_entities =>
      cases hfind : older_entities.find? (fun (e : SnapolationEntity) => e.id == entity.id) with
      | none =>
        have hrest : entitiesMismatch older entity_key state_keys rest = true := by
          rw [entitiesMismatch]
          simpa [hoe, hfind] using h
        simp only [hoe, hfind, ih hrest]
      | some older_entity =>
        cases hkm : keysMismatch entity older_entity state_keys with
        | true =>
          simp only [hoe, hfind,
            interpKeys_mismatch percent entity older_entity state_keys hkm]
        | false =>
          have hrest : entitiesMismatch older entity_key state_keys rest = true := by
            rw [entitiesMismatch]
            simpa [hoe, hfind, hkm] using h
          obtain ⟨l, hl⟩ := interpKeys_ok percent entity older_entity state_keys hkm
          simp only [hoe, hfind, hl, ih hrest]

/-- C5 amended: whenever some entity of the newer snapshot's group is
matched by id in the older snapshot and some requested field is present in
both with differing `StateValue` tags, `interpolate` aborts the process
through `panic!("non-matching state value!")` — it neither coerces, nor
skips the field, nor computes a value, but it also returns no recoverable
typed error. -/
theorem C5_mismatch_panics (self : SnapshotInterpolation)
    (snapshot_a snapshot_b : Snapshot) (time : Nat) (entity_key : String)
    (state_keys : List String)
    (ht : (orderPair snapshot_a snapshot_b).2.time ≤ time)
    (hm : entitiesMismatch (orderPair snapshot_a snapshot_b).2 entity_key state_keys
      (((orderPair snapshot_a snapshot_b).1.entities.lookup entity_key).getD []) = true) :
    self.interpolate snapshot_a snapshot_b time entity_key state_keys =
      .panicked "non-matching state value!" := by
  simp only [SnapshotInterpolation.interpolate]
  rw [if_neg (by omega)]
  rw [interpEntities_mismatch _ _ _ _ _ hm]

/-- Counterexample to C5 as stated: on a field tagged `Number` in the newer
snapshot and `Degree` in the older one, the call does not return a typed,
recoverable error result — it aborts the process with
`panic!("non-matching state value!")`, producing no result at all. -/
theorem C5_counterexample :
    (engWith 0 true).interpolate snapMisN snapMisO 150 "players" ["x"] =
      .panicked "non-matching state value!" := by
  norm_num [SnapshotInterpolation.interpolate, orderPair, divDurationF32,
    interpEntities, interpKeys, interpPair, snapMisN, snapMisO, entNum5, entDeg3,
    engWith, List.lookup]

/-- Witness for C5 amended: a `Radian`/`Quat` mismatch on field `"r"`. -/
theorem C5_witness :
    (engWith 0 true).interpolate snapWitN snapWitO 250 "npc" ["r"] =
      .panicked "non-matching state value!" :=
  C5_mismatch_panics (engWith 0 true) snapWitN snapWitO 250 "npc" ["r"]
    (by decide) (by decide)

end Snapolation
